import Mathlib

/-!
Verification development for the MongoToSql migration script
(`MongoToSql.py`): a shallow embedding of its schema-inference and
type-resolution engine plus the value-conversion/load pipeline, with
theorems settling the specified properties.

The source collaborators (MongoDB cursor, pyodbc connection) are modelled as
opaque data: a collection is a finite list of documents, a document is an
association list from field names to raw BSON/python values, and the SQL sink
is an oracle that either accepts an insert or reports an error.
-/

namespace MongoToSql

/-- Semantic type tag assigned to one observed value, mirroring the string
tags used in `analyze_collection_schema` ("null", "bool", "int", "float",
"decimal", "datetime", "str", "objectid", "json", "bytes"). -/
inductive TypeTag where
  | null
  | bool
  | int
  | float
  | decimal
  | datetime
  | str
  | objectid
  | json
  | bytes
deriving DecidableEq

/-- Raw document value: the python/BSON runtime values distinguished by the
`isinstance` chains of the script. `vInt` covers both python `int` and bson
`Int64` (the script treats them identically); `vFloat` carries the textual
repr of the float, which the script never inspects; `vOther` is an
unrecognized value carrying its `str()` form, `none` when `str()` raises. -/
inductive RawValue where
  | vNull
  | vBool (b : Bool)
  | vInt (n : Int)
  | vFloat (r : String)
  | vDecimal128 (s : String)
  | vDecimal (s : String)
  | vDatetime (t : String)
  | vStr (s : String)
  | vObjectId (hex : String)
  | vList (xs : List RawValue)
  | vDict (kvs : List (String × RawValue))
  | vBytes (bs : List Nat)
  | vBytearray (bs : List Nat)
  | vMemoryview (bs : List Nat)
  | vOther (s : Option String)

/-- A document is an association list of field name to value (python dict,
insertion ordered; keys are unique in a real dict, though nothing below
requires it). -/
abbrev Doc := List (String × RawValue)

/-- JSON rendering of a string (escaping elided; nothing below depends on
the concrete characters produced). -/
def jsonString (s : String) : String := "\"" ++ s ++ "\""

mutual

/-- Model of `json.dumps(value, default=str)` as used for composite values:
lists and dicts are serialized recursively, values with no native JSON form
are rendered through their textual representation. -/
def jsonDumps : RawValue → String
  | .vNull => "null"
  | .vBool true => "true"
  | .vBool false => "false"
  | .vInt n => toString n
  | .vFloat r => r
  | .vDecimal128 s => jsonString s
  | .vDecimal s => jsonString s
  | .vDatetime t => jsonString t
  | .vStr s => jsonString s
  | .vObjectId h => jsonString h
  | .vList xs => "[" ++ jsonArr xs ++ "]"
  | .vDict kvs => "\x7b" ++ jsonObj kvs ++ "\x7d"
  | .vBytes bs => jsonString (toString bs)
  | .vBytearray bs => jsonString (toString bs)
  | .vMemoryview bs => jsonString (toString bs)
  | .vOther os => jsonString (os.getD "")

/-- JSON rendering of the elements of a list value. -/
def jsonArr : List RawValue → String
  | [] => ""
  | [x] => jsonDumps x
  | x :: xs => jsonDumps x ++ ", " ++ jsonArr xs

/-- JSON rendering of the entries of a dict value. -/
def jsonObj : List (String × RawValue) → String
  | [] => ""
  | [(k, v)] => jsonString k ++ ": " ++ jsonDumps v
  | (k, v) :: kvs => jsonString k ++ ": " ++ jsonDumps v ++ ", " ++ jsonObj kvs

end

/-- The value classifier: the `isinstance` chain of
`analyze_collection_schema` (lines 64-96), first match wins. Booleans are
tested before integers (the `int` branch explicitly excludes `bool`), and
unrecognized values fall back to the string tag. -/
def classify : RawValue → TypeTag
  | .vNull => .null
  | .vBool _ => .bool
  | .vInt _ => .int
  | .vFloat _ => .float
  | .vDecimal128 _ => .decimal
  | .vDecimal _ => .decimal
  | .vDatetime _ => .datetime
  | .vStr _ => .str
  | .vObjectId _ => .objectid
  | .vList _ => .json
  | .vDict _ => .json
  | .vBytes _ => .bytes
  | .vBytearray _ => .bytes
  | .vMemoryview _ => .bytes
  | .vOther _ => .str

/-- Per-field statistics gathered by the scanner: the dict created at
lines 52-58 of the source (`types`, `count`, `int_min`, `int_max`,
`max_str_len`) plus the `nullable` flag added after the scan. -/
structure FieldStats where
  types : Finset TypeTag
  count : Nat
  int_min : Option Int
  int_max : Option Int
  max_str_len : Nat
  nullable : Bool
deriving DecidableEq

/-- Fresh statistics record for a newly discovered field. -/
def initStats : FieldStats :=
  { types := ∅, count := 0, int_min := none, int_max := none
    max_str_len := 0, nullable := false }

/-- Update one field's statistics with one observed value: the body of the
`for key, value in doc.items()` loop (count increment, tag insertion, and
min/max/length bookkeeping in the matching branch). -/
def updVal (st : FieldStats) (v : RawValue) : FieldStats :=
  let st1 : FieldStats := { st with count := st.count + 1 }
  match v with
  | .vNull => { st1 with types := insert TypeTag.null st1.types }
  | .vBool _ => { st1 with types := insert TypeTag.bool st1.types }
  | .vInt n =>
      { st1 with
        types := insert TypeTag.int st1.types
        int_min := some (match st1.int_min with
          | none => n
          | some m => if n < m then n else m)
        int_max := some (match st1.int_max with
          | none => n
          | some m => if n > m then n else m) }
  | .vFloat _ => { st1 with types := insert TypeTag.float st1.types }
  | .vDecimal128 _ => { st1 with types := insert TypeTag.decimal st1.types }
  | .vDecimal _ => { st1 with types := insert TypeTag.decimal st1.types }
  | .vDatetime _ => { st1 with types := insert TypeTag.datetime st1.types }
  | .vStr s =>
      { st1 with
        types := insert TypeTag.str st1.types
        max_str_len := max st1.max_str_len s.length }
  | .vObjectId _ => { st1 with types := insert TypeTag.objectid st1.types }
  | .vList _ => { st1 with types := insert TypeTag.json st1.types }
  | .vDict _ => { st1 with types := insert TypeTag.json st1.types }
  | .vBytes _ => { st1 with types := insert TypeTag.bytes st1.types }
  | .vBytearray _ => { st1 with types := insert TypeTag.bytes st1.types }
  | .vMemoryview _ => { st1 with types := insert TypeTag.bytes st1.types }
  | .vOther os =>
      { st1 with
        types := insert TypeTag.str st1.types
        max_str_len := match os with
          | some s => max st1.max_str_len s.length
          | none => st1.max_str_len }

/-- The scanner's statistics dict: field name to statistics, insertion
ordered like a python dict. -/
abbrev StatsMap := List (String × FieldStats)

/-- First-match lookup in the statistics dict. -/
def lookupSt : StatsMap → String → Option FieldStats
  | [], _ => none
  | (k, st) :: rest, key => if k = key then some st else lookupSt rest key

/-- Membership test (`key in stats`). -/
def hasKey (s : StatsMap) (key : String) : Bool := (lookupSt s key).isSome

/-- Lookup defaulting to a fresh record; a key never entered is
indistinguishable from a freshly ensured one. -/
def lookupD (s : StatsMap) (key : String) : FieldStats :=
  (lookupSt s key).getD initStats

/-- Create the statistics entry for a key if absent (`if key not in stats`),
appending at the end like python dict insertion. -/
def ensureKey (s : StatsMap) (key : String) : StatsMap :=
  if hasKey s key then s else s ++ [(key, initStats)]

/-- The `for key in doc.keys()` ensure loop. -/
def ensureKeys (s : StatsMap) : List String → StatsMap := List.foldl ensureKey s

/-- In-place update of one key's statistics with one value. -/
def updKey : StatsMap → String → RawValue → StatsMap
  | [], _, _ => []
  | (k, st) :: rest, key, v =>
      if k = key then (k, updVal st v) :: rest else (k, st) :: updKey rest key v

/-- Field names of a document, in document order. -/
def docKeys (d : Doc) : List String := d.map Prod.fst

/-- Process one document: ensure all its keys exist, then fold its items
through the statistics updates (the body of the scan loop). -/
def scanDoc (s : StatsMap) (d : Doc) : StatsMap :=
  d.foldl (fun acc kv => updKey acc kv.1 kv.2) (ensureKeys s (docKeys d))

/-- Scan a list of documents in order. -/
def scanDocs (s : StatsMap) (docs : List Doc) : StatsMap := docs.foldl scanDoc s

/-- Post-scan pass setting `nullable = count < total_docs` on every entry. -/
def setNullable (s : StatsMap) (total : Nat) : StatsMap :=
  s.map fun kv => (kv.1, { kv.2 with nullable := decide (kv.2.count < total) })

/-- Documents actually consumed by the scan loop: the enumerate/break at
lines 45-47 stops at index `sample_size` when that is a positive number and
otherwise (absent, zero or negative) consumes everything. -/
def effectiveSample (sample_size : Option Int) (docs : List Doc) : List Doc :=
  match sample_size with
  | none => docs
  | some s => if 0 < s then docs.take s.toNat else docs

/-- The schema scanner `analyze_collection_schema`: returns the statistics
dict (with `nullable` set) and the number of documents scanned. -/
def analyze_collection_schema (docs : List Doc) (sample_size : Option Int) :
    StatsMap × Nat :=
  (setNullable (scanDocs [] (effectiveSample sample_size docs))
      (effectiveSample sample_size docs).length,
    (effectiveSample sample_size docs).length)

/-- Configured decimal precision (module constant `DECIMAL_PRECISION`). -/
def DECIMAL_PRECISION : Nat := 38

/-- Configured decimal scale (module constant `DECIMAL_SCALE`). -/
def DECIMAL_SCALE : Nat := 18

/-- Lower bound of 32-bit signed integers (module constant `INT32_MIN`). -/
def INT32_MIN : Int := -(2 ^ 31)

/-- Upper bound of 32-bit signed integers (module constant `INT32_MAX`). -/
def INT32_MAX : Int := 2 ^ 31 - 1

/-- Lower bound of 64-bit signed integers (module constant `INT64_MIN`). -/
def INT64_MIN : Int := -(2 ^ 63)

/-- Upper bound of 64-bit signed integers (module constant `INT64_MAX`). -/
def INT64_MAX : Int := 2 ^ 63 - 1

/-- The type resolver `sql_type_from_stats`: the if-chain of the source,
evaluated top to bottom, first matching rule returning the SQL Server column
type as text. -/
def sql_type_from_stats (st : FieldStats) : String :=
  if st.types = {TypeTag.null} then "NVARCHAR(MAX)"
  else if TypeTag.json ∈ st.types then "NVARCHAR(MAX)"
  else if st.types = {TypeTag.bytes} then "VARBINARY(MAX)"
  else if st.types = {TypeTag.objectid} ∨
      (TypeTag.objectid ∈ st.types ∧ st.types.card = 1) then "NVARCHAR(24)"
  else if st.types = {TypeTag.bool} then "BIT"
  else if st.types = {TypeTag.datetime} then "DATETIME2"
  else if TypeTag.decimal ∈ st.types ∧
      st.types ⊆ {TypeTag.decimal, TypeTag.int} then
    "DECIMAL(" ++ toString DECIMAL_PRECISION ++ "," ++ toString DECIMAL_SCALE ++ ")"
  else if TypeTag.float ∈ st.types then "FLOAT"
  else if st.types = {TypeTag.int} ∨ st.types = {TypeTag.int, TypeTag.null} then
    match st.int_min, st.int_max with
    | none, _ => "BIGINT"
    | _, none => "BIGINT"
    | some lo, some hi =>
      if INT32_MIN ≤ lo ∧ lo ≤ hi ∧ hi ≤ INT32_MAX then "INT"
      else if INT64_MIN ≤ lo ∧ lo ≤ hi ∧ hi ≤ INT64_MAX then "BIGINT"
      else "DECIMAL(" ++ toString DECIMAL_PRECISION ++ ",0)"
  else if st.types ⊆ {TypeTag.str, TypeTag.null} then
    if st.max_str_len ≤ 1 then "NCHAR(1)"
    else if st.max_str_len ≤ 255 then "NVARCHAR(255)"
    else "NVARCHAR(MAX)"
  else "NVARCHAR(MAX)"

/-- Executable code-point-lexicographic comparison on character lists,
modelling python's string `<`/`sorted` order. -/
def charsLe : List Char → List Char → Bool
  | [], _ => true
  | _ :: _, [] => false
  | a :: as, b :: bs =>
      if a < b then true else if b < a then false else charsLe as bs

/-- Lexicographic order on strings used by `sorted(...)`. -/
def strLe (a b : String) : Bool := charsLe a.data b.data

/-- The statistics record synthesized for `_id` when the sampled documents
never contained it (line 231 of the source). -/
def synthIdStats : FieldStats :=
  { types := {TypeTag.objectid}, count := 0, int_min := none, int_max := none
    max_str_len := 24, nullable := true }

/-- Ensure `_id` is present in the statistics dict, synthesizing it for an
empty sample (`create_table_and_insert`, lines 228-231). -/
def ensureId (stats : StatsMap) : StatsMap :=
  if hasKey stats "_id" then stats else stats ++ [("_id", synthIdStats)]

/-- Deterministic column order: `_id` first, then the remaining field names
sorted ascending (line 236 of the source). -/
def ordered_fields (stats : StatsMap) : List String :=
  "_id" :: ((stats.map Prod.fst).filter (fun k => k ≠ "_id")).mergeSort strLe

/-- The `schema_map` computed in `create_table_and_insert`: each ordered
field paired with its resolved SQL type. -/
def schema_map_of (stats : StatsMap) : List (String × String) :=
  (ordered_fields stats).map fun f => (f, sql_type_from_stats (lookupD stats f))

/-- One rendered column definition: `[col] TYPE NULL` (line 175). -/
def renderColumn (col ty : String) : String := "[" ++ col ++ "] " ++ ty ++ " NULL"

/-- The rendered column definitions, in schema order. -/
def colDefs (schema_map : List (String × String)) : List String :=
  schema_map.map fun p => renderColumn p.1 p.2

/-- A single-quote character, used by the emitted T-SQL. -/
def sq : String := String.singleton (Char.ofNat 39)

/-- The DDL builder `build_create_table_statement`: drop-and-recreate or
create-if-absent, with the rendered columns joined by `,\n  `. -/
def build_create_table_statement (table_name : String)
    (schema_map : List (String × String)) (recreate : Bool) : String :=
  let cols_sql := String.intercalate (",\n  ") (colDefs schema_map)
  if recreate then
    "\nIF OBJECT_ID(N" ++ sq ++ "dbo." ++ table_name ++ sq ++ ", " ++ sq ++ "U"
      ++ sq ++ ") IS NOT NULL\n    DROP TABLE [dbo].[" ++ table_name
      ++ "];\nCREATE TABLE [dbo].[" ++ table_name ++ "] (\n  " ++ cols_sql
      ++ "\n);\n"
  else
    "\nIF OBJECT_ID(N" ++ sq ++ "dbo." ++ table_name ++ sq ++ ", " ++ sq ++ "U"
      ++ sq ++ ") IS NULL\nBEGIN\n  CREATE TABLE [dbo].[" ++ table_name
      ++ "] (\n  " ++ cols_sql ++ "\n  );\nEND\n"

/-- Is this value a python `list` or `dict` (the composite test used by the
loader's retry path)? -/
def isComposite : RawValue → Bool
  | .vList _ => true
  | .vDict _ => true
  | _ => false

/-- The value converter `convert_value_for_sql`: the isinstance chain of
lines 197-223 in order — null, ObjectId to its 24-char hex string,
Decimal128 to Decimal, Decimal kept, list/dict to their JSON text,
bytes-like values to bytes, datetime kept, everything else passed through. -/
def convert_value_for_sql : RawValue → RawValue
  | .vNull => .vNull
  | .vObjectId hex => .vStr hex
  | .vDecimal128 s => .vDecimal s
  | .vDecimal s => .vDecimal s
  | .vList xs => .vStr (jsonDumps (.vList xs))
  | .vDict kvs => .vStr (jsonDumps (.vDict kvs))
  | .vBytes bs => .vBytes bs
  | .vBytearray bs => .vBytes bs
  | .vMemoryview bs => .vBytes bs
  | .vDatetime t => .vDatetime t
  | v => v

/-- First-match lookup of a field in a document. -/
def lookupDoc : Doc → String → Option RawValue
  | [], _ => none
  | (k, v) :: rest, key => if k = key then some v else lookupDoc rest key

/-- `doc.get(c)`: the field's value, or python `None` when absent. -/
def dGet (d : Doc) (c : String) : RawValue := (lookupDoc d c).getD .vNull

/-- The positional value tuple built for one row: each schema column's value
looked up in the document and converted (lines 258-260). -/
def rowValues (cols : List String) (d : Doc) : List RawValue :=
  cols.map fun c => convert_value_for_sql (dGet d c)

/-- The retry row: composite values re-serialized to JSON text, everything
else kept (the `safe_vals` loop, lines 265-270). -/
def safeVals (values : List RawValue) : List RawValue :=
  values.map fun v => if isComposite v then .vStr (jsonDumps v) else v

/-- One row's insert with the single retry (lines 261-271). The sink is an
oracle `ins` indexed by a running execute-call counter (`none` = the insert
succeeded, `some e` = it raised `e`); on a direct failure the retry row is
attempted once, and a second failure is returned as the propagating error.
Returns the next counter value on success. -/
def insertRow {ε : Type} (ins : Nat → List RawValue → Option ε) (k : Nat)
    (values : List RawValue) : Except ε Nat :=
  match ins k values with
  | none => .ok (k + 1)
  | some _ =>
    match ins (k + 1) (safeVals values) with
    | none => .ok (k + 2)
    | some e => .error e

/-- The batch loader loop (lines 254-280): for each document build the row,
insert it (with the single retry), count the row, and commit every
`batchSize` rows; after the stream ends perform the final commit. Returns
the rows processed and the number of commits issued, or the propagated
error. -/
def loadDocs {ε : Type} (ins : Nat → List RawValue → Option ε)
    (cols : List String) (batchSize : Nat) :
    List Doc → Nat → Nat → Nat → Nat → Except ε (Nat × Nat)
  | [], _, _, rows, commits => .ok (rows, commits + 1)
  | d :: ds, k, batch, rows, commits =>
    match insertRow ins k (rowValues cols d) with
    | .error e => .error e
    | .ok nextK =>
      if batch + 1 ≥ batchSize then
        loadDocs ins cols batchSize ds nextK 0 (rows + 1) (commits + 1)
      else
        loadDocs ins cols batchSize ds nextK (batch + 1) (rows + 1) commits

/-- Statistics dict after the `_id` synthesis step of
`create_table_and_insert`. -/
def pipelineStats (docs : List Doc) (sample_size : Option Int) : StatsMap :=
  ensureId (analyze_collection_schema docs sample_size).1

/-- The full per-collection pipeline `create_table_and_insert`: infer the
schema from the sample, render the DDL, and stream every document through
the loader. Returns the schema map, the DDL text, and the load outcome. -/
def create_table_and_insert {ε : Type} (ins : Nat → List RawValue → Option ε)
    (docs : List Doc) (table_name : String) (sample_size : Option Int)
    (batchSize : Nat) (recreate : Bool) :
    List (String × String) × String × Except ε (Nat × Nat) :=
  let stats := pipelineStats docs sample_size
  let sm := schema_map_of stats
  (sm, build_create_table_statement table_name sm recreate,
    loadDocs ins (ordered_fields stats) batchSize docs 0 0 0 0)

/-- The inferred table schema as data: each column's name, resolved SQL
type, and nullability, in emitted order. -/
def tableSchema (docs : List Doc) (sample_size : Option Int) :
    List (String × String × Bool) :=
  (ordered_fields (pipelineStats docs sample_size)).map fun f =>
    (f, sql_type_from_stats (lookupD (pipelineStats docs sample_size) f),
      (lookupD (pipelineStats docs sample_size) f).nullable)

/-! ## Resolver lemmas and claims about `sql_type_from_stats` -/

/-- Any statistics record tagged exactly integer (or integer and null) falls
through rules 1-8 to the integer-sizing branch. -/
lemma sql_type_int_branch (st : FieldStats)
    (h : st.types = {TypeTag.int} ∨ st.types = {TypeTag.int, TypeTag.null}) :
    sql_type_from_stats st =
      match st.int_min, st.int_max with
      | none, _ => "BIGINT"
      | _, none => "BIGINT"
      | some lo, some hi =>
        if INT32_MIN ≤ lo ∧ lo ≤ hi ∧ hi ≤ INT32_MAX then "INT"
        else if INT64_MIN ≤ lo ∧ lo ≤ hi ∧ hi ≤ INT64_MAX then "BIGINT"
        else "DECIMAL(" ++ toString DECIMAL_PRECISION ++ ",0)" := by
  rcases h with h | h <;>
    (unfold sql_type_from_stats
     rw [h]
     rw [if_neg (by decide), if_neg (by decide), if_neg (by decide),
         if_neg (by decide), if_neg (by decide), if_neg (by decide),
         if_neg (by decide), if_neg (by decide), if_pos (by decide)])

/-- C1: for a field whose tag set is exactly \x7binteger\x7d or
\x7binteger, null\x7d, the resolver sizes the column from the min/max
bounds: BIGINT when a bound is unknown, INT when both bounds fit 32-bit,
BIGINT when both fit 64-bit, and otherwise the zero-scale decimal at the
configured precision. -/
theorem c1_integer_sizing (st : FieldStats)
    (h : st.types = {TypeTag.int} ∨ st.types = {TypeTag.int, TypeTag.null}) :
    (st.int_min = none ∨ st.int_max = none →
      sql_type_from_stats st = "BIGINT") ∧
    (∀ lo hi, st.int_min = some lo → st.int_max = some hi →
      ((INT32_MIN ≤ lo ∧ lo ≤ hi ∧ hi ≤ INT32_MAX) →
        sql_type_from_stats st = "INT") ∧
      (¬(INT32_MIN ≤ lo ∧ lo ≤ hi ∧ hi ≤ INT32_MAX) →
        (INT64_MIN ≤ lo ∧ lo ≤ hi ∧ hi ≤ INT64_MAX) →
        sql_type_from_stats st = "BIGINT") ∧
      (¬(INT32_MIN ≤ lo ∧ lo ≤ hi ∧ hi ≤ INT32_MAX) →
        ¬(INT64_MIN ≤ lo ∧ lo ≤ hi ∧ hi ≤ INT64_MAX) →
        sql_type_from_stats st = "DECIMAL(38,0)")) := by
  rw [sql_type_int_branch st h]
  constructor
  · rintro (hmn | hmx)
    · rw [hmn]; rcases st.int_max with _ | hi <;> rfl
    · rw [hmx]; rcases st.int_min with _ | lo <;> rfl
  · intro lo hi hmn hmx
    rw [hmn, hmx]
    dsimp only
    refine ⟨fun h32 => by rw [if_pos h32], fun h32 h64 => ?_, fun h32 h64 => ?_⟩
    · rw [if_neg h32, if_pos h64]
    · rw [if_neg h32, if_neg h64]; decide

/-- C1 witness: the three boundary instances of the claim — the exact 32-bit
bounds give INT, min one below the 32-bit range gives BIGINT, and a max just
above the 64-bit range gives the decimal fallback. -/
theorem c1_integer_sizing_witness :
    (sql_type_from_stats
      { types := {TypeTag.int}, count := 1, int_min := some (-2147483648),
        int_max := some 2147483647, max_str_len := 0, nullable := false }
      = "INT") ∧
    (sql_type_from_stats
      { types := {TypeTag.int}, count := 1, int_min := some (-2147483649),
        int_max := some 2147483647, max_str_len := 0, nullable := false }
      = "BIGINT") ∧
    (sql_type_from_stats
      { types := {TypeTag.int}, count := 1, int_min := some 0,
        int_max := some 9223372036854775808, max_str_len := 0,
        nullable := false }
      = "DECIMAL(38,0)") ∧
    (sql_type_from_stats
      { types := {TypeTag.int, TypeTag.null}, count := 1, int_min := none,
        int_max := none, max_str_len := 0, nullable := false }
      = "BIGINT") := by
  refine ⟨?_, ?_, ?_, ?_⟩
  · exact ((c1_integer_sizing _ (Or.inl rfl)).2 _ _ rfl rfl).1 (by decide)
  · exact ((c1_integer_sizing _ (Or.inl rfl)).2 _ _ rfl rfl).2.1 (by decide) (by decide)
  · exact ((c1_integer_sizing _ (Or.inl rfl)).2 _ _ rfl rfl).2.2 (by decide) (by decide)
  · exact (c1_integer_sizing _ (Or.inr rfl)).1 (Or.inl rfl)

/-- C2: a field observed as decimal and null fails rule 7's subset test
(null is not in \x7bdecimal, integer\x7d) and falls through every later
numeric and text rule to the final mixed-type fallback, NVARCHAR(MAX). -/
theorem c2_decimal_null_fallthrough (st : FieldStats)
    (h : st.types = {TypeTag.decimal, TypeTag.null}) :
    ¬(TypeTag.decimal ∈ st.types ∧
        st.types ⊆ {TypeTag.decimal, TypeTag.int}) ∧
    sql_type_from_stats st = "NVARCHAR(MAX)" := by
  refine ⟨by rw [h]; decide, ?_⟩
  unfold sql_type_from_stats
  rw [h]
  rw [if_neg (by decide), if_neg (by decide), if_neg (by decide),
      if_neg (by decide), if_neg (by decide), if_neg (by decide),
      if_neg (by decide), if_neg (by decide), if_neg (by decide),
      if_neg (by decide)]

/-- C2 witness: the concrete decimal-and-null record resolves to
NVARCHAR(MAX) and does not satisfy rule 7. -/
theorem c2_decimal_null_fallthrough_witness :
    ¬(TypeTag.decimal ∈ ({TypeTag.decimal, TypeTag.null} : Finset TypeTag) ∧
        ({TypeTag.decimal, TypeTag.null} : Finset TypeTag) ⊆
          {TypeTag.decimal, TypeTag.int}) ∧
    sql_type_from_stats
      { types := {TypeTag.decimal, TypeTag.null}, count := 2, int_min := none,
        int_max := none, max_str_len := 0, nullable := false }
      = "NVARCHAR(MAX)" :=
  c2_decimal_null_fallthrough
    { types := {TypeTag.decimal, TypeTag.null}, count := 2, int_min := none,
      int_max := none, max_str_len := 0, nullable := false } rfl

/-- C5: the classifier is a total deterministic function — every raw value
gets exactly one tag — and a boolean value is classified as boolean, never
as integer. -/
theorem c5_classifier_total_bool_not_int :
    (∀ v : RawValue, ∃! t : TypeTag, classify v = t) ∧
    (∀ b : Bool, classify (RawValue.vBool b) = TypeTag.bool) ∧
    (∀ b : Bool, classify (RawValue.vBool b) ≠ TypeTag.int) :=
  ⟨fun v => ⟨classify v, rfl, fun _ h => h.symm⟩,
   fun _ => rfl,
   fun _ h => by simp [classify] at h⟩

/-- C6 counterexample: the null-only record has a tag set contained in
\x7bstring, null\x7d and max length 0, yet rule 1 resolves it to
NVARCHAR(MAX), not the NCHAR(1) the claim's text-sizing rule predicts. -/
theorem c6_counterexample :
    (({TypeTag.null} : Finset TypeTag) ⊆ {TypeTag.str, TypeTag.null}) ∧
    (FieldStats.max_str_len
      { types := {TypeTag.null}, count := 1, int_min := none, int_max := none,
        max_str_len := 0, nullable := false } ≤ 1) ∧
    sql_type_from_stats
      { types := {TypeTag.null}, count := 1, int_min := none, int_max := none,
        max_str_len := 0, nullable := false } ≠ "NCHAR(1)" ∧
    sql_type_from_stats
      { types := {TypeTag.null}, count := 1, int_min := none, int_max := none,
        max_str_len := 0, nullable := false } = "NVARCHAR(MAX)" := by
  decide

/-- The four subsets of the string/null tag pair. -/
lemma subset_str_null_cases (T : Finset TypeTag)
    (h : T ⊆ {TypeTag.str, TypeTag.null}) :
    T = ∅ ∨ T = {TypeTag.str} ∨ T = {TypeTag.null} ∨
      T = {TypeTag.str, TypeTag.null} := by
  revert h
  revert T
  decide

/-- C6 as amended: for a record whose tag set is contained in
\x7bstring, null\x7d and is not exactly \x7bnull\x7d (rule 1 claims that
case first), the text-sizing rule applies: NCHAR(1) for max length at most
1, NVARCHAR(255) up to 255, NVARCHAR(MAX) beyond. -/
theorem c6_text_sizing (st : FieldStats)
    (h1 : st.types ⊆ {TypeTag.str, TypeTag.null})
    (h2 : st.types ≠ {TypeTag.null}) :
    sql_type_from_stats st =
      if st.max_str_len ≤ 1 then "NCHAR(1)"
      else if st.max_str_len ≤ 255 then "NVARCHAR(255)"
      else "NVARCHAR(MAX)" := by
  rcases subset_str_null_cases st.types h1 with h | h | h | h
  · unfold sql_type_from_stats
    rw [h]
    rw [if_neg (by decide), if_neg (by decide), if_neg (by decide),
        if_neg (by decide), if_neg (by decide), if_neg (by decide),
        if_neg (by decide), if_neg (by decide), if_neg (by decide),
        if_pos (by decide)]
  · unfold sql_type_from_stats
    rw [h]
    rw [if_neg (by decide), if_neg (by decide), if_neg (by decide),
        if_neg (by decide), if_neg (by decide), if_neg (by decide),
        if_neg (by decide), if_neg (by decide), if_neg (by decide),
        if_pos (by decide)]
  · exact absurd h h2
  · unfold sql_type_from_stats
    rw [h]
    rw [if_neg (by decide), if_neg (by decide), if_neg (by decide),
        if_neg (by decide), if_neg (by decide), if_neg (by decide),
        if_neg (by decide), if_neg (by decide), if_neg (by decide),
        if_pos (by decide)]

/-- C6 witness: the three boundary lengths of the amended claim — 1 gives
NCHAR(1), 255 gives NVARCHAR(255), 256 gives NVARCHAR(MAX). -/
theorem c6_text_sizing_witness :
    (sql_type_from_stats
      { types := {TypeTag.str}, count := 1, int_min := none, int_max := none,
        max_str_len := 1, nullable := false } = "NCHAR(1)") ∧
    (sql_type_from_stats
      { types := {TypeTag.str}, count := 1, int_min := none, int_max := none,
        max_str_len := 255, nullable := false } = "NVARCHAR(255)") ∧
    (sql_type_from_stats
      { types := {TypeTag.str, TypeTag.null}, count := 1, int_min := none,
        int_max := none, max_str_len := 256, nullable := false }
      = "NVARCHAR(MAX)") := by
  refine ⟨?_, ?_, ?_⟩
  · rw [c6_text_sizing _ (by decide) (by decide)]; decide
  · rw [c6_text_sizing _ (by decide) (by decide)]; decide
  · rw [c6_text_sizing _ (by decide) (by decide)]; decide

/-! ## Converter and loader claims -/

/-- C10: the converter never returns a composite value (lists and dicts are
serialized to JSON text in the first pass), hence the loader's retry tuple —
re-serializing composite values among the converted ones — is exactly the
converted tuple. -/
theorem c10_converter_never_composite :
    (∀ v : RawValue, isComposite (convert_value_for_sql v) = false) ∧
    (∀ (cols : List String) (d : Doc),
      safeVals (rowValues cols d) = rowValues cols d) := by
  have h1 : ∀ v : RawValue, isComposite (convert_value_for_sql v) = false := by
    intro v; cases v <;> rfl
  refine ⟨h1, fun cols d => ?_⟩
  unfold safeVals rowValues
  rw [List.map_map]
  exact List.map_congr_left fun c _ => by simp [Function.comp, h1]

/-- C4: when the direct insert of a row fails and the single retry — run on
the converted tuple with composite values re-serialized to JSON text — also
fails, the retry's error propagates out of the loader and the remaining
documents are never attempted. -/
theorem c4_single_retry_propagates {ε : Type}
    (ins : Nat → List RawValue → Option ε) (cols : List String)
    (batchSize : Nat) (d : Doc) (ds : List Doc)
    (k batch rows commits : Nat) (e1 e2 : ε)
    (h1 : ins k (rowValues cols d) = some e1)
    (h2 : ins (k + 1) (safeVals (rowValues cols d)) = some e2) :
    insertRow ins k (rowValues cols d) = .error e2 ∧
    loadDocs ins cols batchSize (d :: ds) k batch rows commits = .error e2 := by
  have hrow : insertRow ins k (rowValues cols d) = .error e2 := by
    unfold insertRow
    rw [h1, h2]
  exact ⟨hrow, by unfold loadDocs; rw [hrow]⟩

/-- C4 witness: with a sink that rejects every insert, the loader run on one
document returns the retry's error. -/
theorem c4_single_retry_propagates_witness :
    ((fun _ _ => some 7) : Nat → List RawValue → Option Nat) 0
        (rowValues ["a"] [("a", RawValue.vInt 1)]) = some 7 ∧
    ((fun _ _ => some 7) : Nat → List RawValue → Option Nat) 1
        (safeVals (rowValues ["a"] [("a", RawValue.vInt 1)])) = some 7 ∧
    loadDocs (fun _ _ => some 7) ["a"] 500 [[("a", RawValue.vInt 1)]] 0 0 0 0
      = Except.error 7 :=
  ⟨rfl, rfl,
    (c4_single_retry_propagates (fun _ _ => some 7) ["a"] 500
      [("a", RawValue.vInt 1)] [] 0 0 0 0 7 7 rfl rfl).2⟩

/-! ## Loader batching (C9) -/

/-- Accumulator invariant of the loader loop: starting below the batch
threshold, a successful run processes every remaining document and issues
one commit per completed batch plus the final commit. -/
lemma loadDocs_ok_spec {ε : Type} (ins : Nat → List RawValue → Option ε)
    (cols : List String) (B : Nat) (hB : 0 < B) :
    ∀ (ds : List Doc) (k b r c rows commits : Nat), b < B →
      loadDocs ins cols B ds k b r c = .ok (rows, commits) →
      rows = r + ds.length ∧ commits = c + (b + ds.length) / B + 1 := by
  intro ds
  induction ds with
  | nil =>
    intro k b r c rows commits hb hld
    unfold loadDocs at hld
    simp only [Except.ok.injEq, Prod.mk.injEq] at hld
    obtain ⟨h1, h2⟩ := hld
    subst h1
    subst h2
    refine ⟨rfl, ?_⟩
    have hdiv : (b + ([] : List Doc).length) / B = 0 := by
      simp [Nat.div_eq_of_lt hb]
    rw [hdiv]
  | cons d ds ih =>
    intro k b r c rows commits hb hld
    unfold loadDocs at hld
    cases hins : insertRow ins k (rowValues cols d) with
    | error e =>
      rw [hins] at hld
      exact absurd hld (by simp)
    | ok nextK =>
      rw [hins] at hld
      dsimp only at hld
      by_cases hbatch : b + 1 ≥ B
      · rw [if_pos hbatch] at hld
        obtain ⟨h1, h2⟩ := ih nextK 0 (r + 1) (c + 1) rows commits hB hld
        refine ⟨by rw [h1, List.length_cons]; ring, ?_⟩
        have hdiv : (b + (ds.length + 1)) / B = ds.length / B + 1 := by
          rw [show b + (ds.length + 1) = ds.length + B by omega]
          exact Nat.add_div_right _ hB
        rw [List.length_cons, hdiv, h2, Nat.zero_add]
        ring
      · rw [if_neg hbatch] at hld
        obtain ⟨h1, h2⟩ := ih nextK (b + 1) (r + 1) c rows commits (by omega) hld
        refine ⟨by rw [h1, List.length_cons]; ring, ?_⟩
        rw [h2, List.length_cons, show b + 1 + ds.length = b + (ds.length + 1) by omega]

/-- C9: a loader run that completes processes exactly one row per document
of the stream — whether each row succeeded directly or on the retry — and
commits once per full batch of `batchSize` rows plus one final commit for
the trailing partial batch. -/
theorem c9_batch_commits {ε : Type} (ins : Nat → List RawValue → Option ε)
    (cols : List String) (batchSize : Nat) (docs : List Doc)
    (rows commits : Nat) (hB : 0 < batchSize)
    (h : loadDocs ins cols batchSize docs 0 0 0 0 = .ok (rows, commits)) :
    rows = docs.length ∧ commits = docs.length / batchSize + 1 := by
  have hspec := loadDocs_ok_spec ins cols batchSize hB docs 0 0 0 0 rows commits hB h
  simpa using hspec

/-- C9 witness: three documents with batch size 2, the first row succeeding
only on its retry — three rows processed, one mid-stream commit plus the
final commit. -/
theorem c9_batch_commits_witness :
    (0 < 2) ∧
    loadDocs (fun k _ => if k = 0 then some 7 else (none : Option Nat)) ["a"] 2
      [[("a", RawValue.vInt 1)], [("a", RawValue.vInt 2)],
        [("a", RawValue.vInt 3)]] 0 0 0 0 = .ok (3, 2) ∧
    ((3 : Nat) =
      ([[("a", RawValue.vInt 1)], [("a", RawValue.vInt 2)],
        [("a", RawValue.vInt 3)]] : List Doc).length ∧
     (2 : Nat) =
      ([[("a", RawValue.vInt 1)], [("a", RawValue.vInt 2)],
        [("a", RawValue.vInt 3)]] : List Doc).length / 2 + 1) :=
  ⟨by decide, rfl,
    c9_batch_commits (fun k _ => if k = 0 then some 7 else (none : Option Nat))
      ["a"] 2 _ 3 2 (by decide) rfl⟩

/-! ## Sampling and nullability (C8) -/

/-- Looking a key up after the nullable pass gives the scanned record with
its `nullable` flag set from its count. -/
lemma lookupSt_setNullable (s : StatsMap) (t : Nat) (k : String) :
    lookupSt (setNullable s t) k =
      (lookupSt s k).map fun st =>
        { st with nullable := decide (st.count < t) } := by
  induction s with
  | nil => rfl
  | cons kv rest ih =>
    obtain ⟨k0, st0⟩ := kv
    unfold setNullable at ih ⊢
    simp only [List.map_cons]
    unfold lookupSt
    by_cases hk : k0 = k
    · rw [if_pos hk, if_pos hk]
      rfl
    · rw [if_neg hk, if_neg hk, ih]

/-- C8: the scan consumes the whole sequence when the sample size is absent,
zero or negative, and otherwise `min sampleSize length` documents; and after
the scan every recorded field is nullable exactly when its occurrence count
is below the total scanned. -/
theorem c8_sampling_nullable (docs : List Doc) (ss : Option Int) :
    ((analyze_collection_schema docs ss).2 =
      match ss with
      | none => docs.length
      | some s => if 0 < s then min s.toNat docs.length else docs.length) ∧
    (∀ k st, lookupSt (analyze_collection_schema docs ss).1 k = some st →
      (st.nullable = true ↔
        st.count < (analyze_collection_schema docs ss).2)) := by
  constructor
  · unfold analyze_collection_schema effectiveSample
    rcases ss with _ | s
    · rfl
    · dsimp only
      by_cases hs : 0 < s
      · rw [if_pos hs, if_pos hs, List.length_take, inf_eq_min]
      · rw [if_neg hs, if_neg hs]
  · intro k st hst
    unfold analyze_collection_schema at hst ⊢
    dsimp only at hst ⊢
    rw [lookupSt_setNullable] at hst
    rcases hmem : lookupSt (scanDocs [] (effectiveSample ss docs)) k with _ | st0
    · rw [hmem] at hst
      cases hst
    · rw [hmem, Option.map_some'] at hst
      injection hst with hst
      subst hst
      simp

/-- C8 witness: a two-document sample (the second document empty) scans 2
documents, and field `a`, present once, is nullable because 1 < 2. -/
theorem c8_sampling_nullable_witness :
    ((analyze_collection_schema [[("a", RawValue.vInt 1)], []] none).2 = 2) ∧
    (lookupSt (analyze_collection_schema [[("a", RawValue.vInt 1)], []] none).1
        "a" =
      some { types := {TypeTag.int}, count := 1, int_min := some 1,
             int_max := some 1, max_str_len := 0, nullable := true }) ∧
    (({ types := {TypeTag.int}, count := 1, int_min := some 1,
          int_max := some 1, max_str_len := 0,
          nullable := true } : FieldStats).nullable = true ↔
      ({ types := {TypeTag.int}, count := 1, int_min := some 1,
          int_max := some 1, max_str_len := 0,
          nullable := true } : FieldStats).count <
        (analyze_collection_schema [[("a", RawValue.vInt 1)], []] none).2) :=
  ⟨rfl, by decide,
    (c8_sampling_nullable [[("a", RawValue.vInt 1)], []] none).2 "a" _ (by decide)⟩

/-! ## Per-observation decomposition of the statistics update -/

/-- The integer payload an observation contributes to min/max bookkeeping. -/
def obsInt : RawValue → Option Int
  | .vInt n => some n
  | _ => none

/-- The length an observation contributes to max-string-length bookkeeping
(strings always, unrecognized values only when their `str()` form exists). -/
def obsLen : RawValue → Option Nat
  | .vStr s => some s.length
  | .vOther (some s) => some s.length
  | _ => none

/-- One observation's effect on the running minimum. -/
def intMinUpd (m : Option Int) (v : RawValue) : Option Int :=
  match obsInt v with
  | none => m
  | some n => some (match m with
      | none => n
      | some m0 => if n < m0 then n else m0)

/-- One observation's effect on the running maximum. -/
def intMaxUpd (m : Option Int) (v : RawValue) : Option Int :=
  match obsInt v with
  | none => m
  | some n => some (match m with
      | none => n
      | some m0 => if n > m0 then n else m0)

/-- One observation's effect on the running maximum string length. -/
def lenUpd (len : Nat) (v : RawValue) : Nat :=
  match obsLen v with
  | none => len
  | some n => max len n

/-- The statistics update decomposed componentwise: tag insertion, count
increment, and the three bookkeeping folds. -/
lemma updVal_eq (st : FieldStats) (v : RawValue) :
    updVal st v =
      { types := insert (classify v) st.types, count := st.count + 1,
        int_min := intMinUpd st.int_min v, int_max := intMaxUpd st.int_max v,
        max_str_len := lenUpd st.max_str_len v, nullable := st.nullable } := by
  cases v with
  | vOther os => cases os <;> rfl
  | _ => rfl

/-- Min bookkeeping is insensitive to the order of two observations. -/
lemma intMinUpd_comm (m : Option Int) (a b : RawValue) :
    intMinUpd (intMinUpd m a) b = intMinUpd (intMinUpd m b) a := by
  unfold intMinUpd
  rcases obsInt a with _ | n1 <;> rcases obsInt b with _ | n2 <;> dsimp only
  rcases m with _ | m0 <;> dsimp only <;>
    (simp only [Option.some.injEq]; split_ifs <;> omega)

/-- Max bookkeeping is insensitive to the order of two observations. -/
lemma intMaxUpd_comm (m : Option Int) (a b : RawValue) :
    intMaxUpd (intMaxUpd m a) b = intMaxUpd (intMaxUpd m b) a := by
  unfold intMaxUpd
  rcases obsInt a with _ | n1 <;> rcases obsInt b with _ | n2 <;> dsimp only
  rcases m with _ | m0 <;> dsimp only <;>
    (simp only [Option.some.injEq]; split_ifs <;> omega)

/-- Length bookkeeping is insensitive to the order of two observations. -/
lemma lenUpd_comm (len : Nat) (a b : RawValue) :
    lenUpd (lenUpd len a) b = lenUpd (lenUpd len b) a := by
  unfold lenUpd
  rcases obsLen a with _ | n1 <;> rcases obsLen b with _ | n2 <;> dsimp only
  omega

/-- The full statistics update is right-commutative: two observations can be
applied in either order. -/
lemma updVal_right_comm (st : FieldStats) (a b : RawValue) :
    updVal (updVal st a) b = updVal (updVal st b) a := by
  rw [updVal_eq st a, updVal_eq st b, updVal_eq _ b, updVal_eq _ a]
  simp only [FieldStats.mk.injEq, and_true, true_and]
  exact ⟨Finset.Insert.comm _ _ _, intMinUpd_comm st.int_min a b,
    intMaxUpd_comm st.int_max a b, lenUpd_comm st.max_str_len a b⟩

instance : RightCommutative updVal := ⟨fun st a b => updVal_right_comm st a b⟩

/-! ## Statistics-dict structure lemmas -/

/-- Two boolean expressions agreeing as propositions are equal. -/
lemma bool_eq_of_iff {a b : Bool} (h : a = true ↔ b = true) : a = b := by
  cases a <;> cases b <;> simp_all

/-- Lookup distributes over append: the left part is consulted first. -/
lemma lookupSt_append (s l : StatsMap) (k : String) :
    lookupSt (s ++ l) k =
      match lookupSt s k with
      | some v => some v
      | none => lookupSt l k := by
  induction s with
  | nil => rfl
  | cons kv rest ih =>
    obtain ⟨k0, st0⟩ := kv
    rw [List.cons_append]
    simp only [lookupSt]
    by_cases hk : k0 = k
    · rw [if_pos hk, if_pos hk]
    · rw [if_neg hk, if_neg hk, ih]

/-- A key is present exactly when it occurs among the dict's keys. -/
lemma hasKey_iff_mem (s : StatsMap) (k : String) :
    hasKey s k = true ↔ k ∈ s.map Prod.fst := by
  induction s with
  | nil => simp [hasKey, lookupSt]
  | cons kv rest ih =>
    obtain ⟨k0, st0⟩ := kv
    simp only [hasKey, lookupSt] at ih ⊢
    by_cases hk : k0 = k
    · simp [hk]
    · rw [if_neg hk]
      simp only [List.map_cons, List.mem_cons]
      rw [ih]
      constructor
      · exact Or.inr
      · rintro (hkk | hmem)
        · exact absurd hkk.symm hk
        · exact hmem

/-- Dicts with the same key list agree on key membership. -/
lemma hasKey_congr_keys (s1 s2 : StatsMap) (k : String)
    (h : s1.map Prod.fst = s2.map Prod.fst) : hasKey s1 k = hasKey s2 k :=
  bool_eq_of_iff (by rw [hasKey_iff_mem, hasKey_iff_mem, h])

/-- Updating a key's statistics leaves the key list unchanged. -/
lemma keys_updKey (s : StatsMap) (k0 : String) (v : RawValue) :
    (updKey s k0 v).map Prod.fst = s.map Prod.fst := by
  induction s with
  | nil => rfl
  | cons kv rest ih =>
    obtain ⟨k1, st1⟩ := kv
    unfold updKey
    by_cases hk : k1 = k0
    · rw [if_pos hk]
      rfl
    · rw [if_neg hk]
      simp only [List.map_cons, ih]

/-- Lookup after an in-place update: the target key's record is updated,
every other key is untouched, and a missing target stays missing. -/
lemma lookupSt_updKey (s : StatsMap) (k0 : String) (v : RawValue) (k : String) :
    lookupSt (updKey s k0 v) k =
      if k0 = k then (lookupSt s k).map fun st => updVal st v
      else lookupSt s k := by
  induction s with
  | nil =>
    unfold updKey lookupSt
    split <;> rfl
  | cons kv rest ih =>
    obtain ⟨k1, st1⟩ := kv
    unfold updKey
    by_cases h10 : k1 = k0
    · rw [if_pos h10]
      unfold lookupSt
      by_cases h1k : k1 = k
      · rw [if_pos h1k, if_pos h1k, if_pos (h10 ▸ h1k)]
        rfl
      · rw [if_neg h1k, if_neg h1k, if_neg fun h => h1k (h10.trans h)]
    · rw [if_neg h10]
      unfold lookupSt
      by_cases h1k : k1 = k
      · rw [if_pos h1k, if_pos h1k, if_neg fun h0k => h10 (h1k ▸ h0k.symm)]
      · rw [if_neg h1k, if_neg h1k, ih]

/-- Ensuring a key leaves every defaulted lookup unchanged: an absent key
reads as a fresh record either way. -/
lemma lookupD_ensureKey (s : StatsMap) (k0 k : String) :
    lookupD (ensureKey s k0) k = lookupD s k := by
  unfold ensureKey
  by_cases h : hasKey s k0
  · rw [if_pos h]
  · rw [if_neg h]
    unfold lookupD
    rw [lookupSt_append]
    rcases hs : lookupSt s k with _ | v
    · by_cases hk : k0 = k
      · subst hk
        simp [lookupSt]
      · simp [lookupSt, hk]
    · rfl

/-- Key membership after ensuring a key. -/
lemma hasKey_ensureKey (s : StatsMap) (k0 k : String) :
    hasKey (ensureKey s k0) k = true ↔ hasKey s k = true ∨ k = k0 := by
  unfold ensureKey
  by_cases h : hasKey s k0
  · rw [if_pos h]
    constructor
    · exact Or.inl
    · rintro (hk | rfl)
      · exact hk
      · exact h
  · rw [if_neg h]
    unfold hasKey
    rw [lookupSt_append]
    rcases hs : lookupSt s k with _ | v
    · by_cases hk : k0 = k
      · subst hk
        simp [lookupSt]
      · simp [lookupSt, hk, Ne.symm hk]
    · simp

/-- The ensure loop leaves every defaulted lookup unchanged. -/
lemma lookupD_ensureKeys (ks : List String) :
    ∀ (s : StatsMap) (k : String), lookupD (ensureKeys s ks) k = lookupD s k := by
  induction ks with
  | nil => intro s k; rfl
  | cons k0 rest ih =>
    intro s k
    unfold ensureKeys at ih ⊢
    rw [List.foldl_cons, ih, lookupD_ensureKey]

/-- Key membership after the ensure loop. -/
lemma hasKey_ensureKeys (ks : List String) :
    ∀ (s : StatsMap) (k : String),
      hasKey (ensureKeys s ks) k = true ↔ hasKey s k = true ∨ k ∈ ks := by
  induction ks with
  | nil => intro s k; simp [ensureKeys]
  | cons k0 rest ih =>
    intro s k
    unfold ensureKeys at ih ⊢
    rw [List.foldl_cons, ih, hasKey_ensureKey, List.mem_cons]
    tauto

/-! ## Scan characterization: per-key folds over observations -/

/-- The values a document contributes to one field, in document order. -/
def docValues (k : String) (d : Doc) : List RawValue :=
  (d.filter fun kv => decide (kv.1 = k)).map Prod.snd

/-- The values a document list contributes to one field, in stream order. -/
def docsValues (k : String) (ds : List Doc) : List RawValue :=
  ds.flatMap fun d => docValues k d

/-- The item loop preserves the key list. -/
lemma keys_itemsFold (d : List (String × RawValue)) :
    ∀ s : StatsMap,
      ((d.foldl (fun acc kv => updKey acc kv.1 kv.2) s).map Prod.fst) =
        s.map Prod.fst := by
  induction d with
  | nil => intro s; rfl
  | cons kv rest ih =>
    intro s
    rw [List.foldl_cons, ih, keys_updKey]

/-- Run the item loop over a dict already containing every item's key: each
key's final record is the fold of its observed values over its prior
record. -/
lemma lookupD_itemsFold (d : List (String × RawValue)) :
    ∀ (s : StatsMap) (k : String), (∀ kv ∈ d, hasKey s kv.1 = true) →
      lookupD (d.foldl (fun acc kv => updKey acc kv.1 kv.2) s) k =
        List.foldl updVal (lookupD s k) (docValues k d) := by
  induction d with
  | nil => intro s k _; rfl
  | cons kv rest ih =>
    intro s k hkeys
    obtain ⟨k0, v⟩ := kv
    have hhas : hasKey s k0 = true := hkeys (k0, v) (List.mem_cons_self _ _)
    have hrest : ∀ kv ∈ rest, hasKey (updKey s k0 v) kv.1 = true := by
      intro kv hkv
      rw [hasKey_congr_keys _ s _ (keys_updKey s k0 v)]
      exact hkeys kv (List.mem_cons_of_mem _ hkv)
    rw [List.foldl_cons, ih (updKey s k0 v) k hrest]
    by_cases hk : k0 = k
    · have hlk : lookupD (updKey s k0 v) k = updVal (lookupD s k) v := by
        unfold lookupD
        rw [lookupSt_updKey, if_pos hk]
        subst hk
        rcases hsome : lookupSt s k0 with _ | st
        · unfold hasKey at hhas
          rw [hsome] at hhas
          cases hhas
        · rfl
      rw [hlk]
      unfold docValues
      rw [List.filter_cons_of_pos (by simpa using hk), List.map_cons,
        List.foldl_cons]
    · have hlk : lookupD (updKey s k0 v) k = lookupD s k := by
        unfold lookupD
        rw [lookupSt_updKey, if_neg hk]
      rw [hlk]
      unfold docValues
      rw [List.filter_cons_of_neg (by simpa using hk)]

/-- Scanning one document folds each key's observed values over its prior
record (ensuring then updating). -/
lemma lookupD_scanDoc (s : StatsMap) (d : Doc) (k : String) :
    lookupD (scanDoc s d) k = List.foldl updVal (lookupD s k) (docValues k d) := by
  unfold scanDoc
  rw [lookupD_itemsFold d (ensureKeys s (docKeys d)) k ?_, lookupD_ensureKeys]
  intro kv hkv
  exact (hasKey_ensureKeys (docKeys d) s kv.1).mpr
    (Or.inr (List.mem_map_of_mem Prod.fst hkv))

/-- Key membership after scanning one document. -/
lemma hasKey_scanDoc (s : StatsMap) (d : Doc) (k : String) :
    hasKey (scanDoc s d) k = true ↔ hasKey s k = true ∨ k ∈ docKeys d := by
  unfold scanDoc
  rw [hasKey_congr_keys _ _ _ (keys_itemsFold d (ensureKeys s (docKeys d)))]
  exact hasKey_ensureKeys (docKeys d) s k

/-- Scanning a document list folds each key's observed value stream over its
prior record. -/
lemma lookupD_scanDocs (ds : List Doc) :
    ∀ (s : StatsMap) (k : String),
      lookupD (scanDocs s ds) k =
        List.foldl updVal (lookupD s k) (docsValues k ds) := by
  induction ds with
  | nil => intro s k; rfl
  | cons d rest ih =>
    intro s k
    unfold scanDocs at ih ⊢
    rw [List.foldl_cons, ih, lookupD_scanDoc]
    unfold docsValues
    rw [List.flatMap_cons, List.foldl_append]

/-- Key membership after scanning a document list. -/
lemma hasKey_scanDocs (ds : List Doc) :
    ∀ (s : StatsMap) (k : String),
      hasKey (scanDocs s ds) k = true ↔
        hasKey s k = true ∨ ∃ d ∈ ds, k ∈ docKeys d := by
  induction ds with
  | nil => intro s k; simp [scanDocs]
  | cons d rest ih =>
    intro s k
    unfold scanDocs at ih ⊢
    rw [List.foldl_cons, ih, hasKey_scanDoc]
    constructor
    · rintro ((hs | hd) | ⟨d1, hd1, hk1⟩)
      · exact Or.inl hs
      · exact Or.inr ⟨d, List.mem_cons_self _ _, hd⟩
      · exact Or.inr ⟨d1, List.mem_cons_of_mem _ hd1, hk1⟩
    · rintro (hs | ⟨d1, hd1, hk1⟩)
      · exact Or.inl (Or.inl hs)
      · rcases List.mem_cons.mp hd1 with rfl | hd1
        · exact Or.inl (Or.inr hk1)
        · exact Or.inr ⟨d1, hd1, hk1⟩

/-- Keys of the nullable pass. -/
lemma keys_setNullable (s : StatsMap) (t : Nat) :
    (setNullable s t).map Prod.fst = s.map Prod.fst := by
  unfold setNullable
  rw [List.map_map]
  rfl

/-- The key list produced by scanning has no duplicates. -/
lemma nodup_keys_scanDocs (ds : List Doc) :
    ∀ s : StatsMap, (s.map Prod.fst).Nodup →
      ((scanDocs s ds).map Prod.fst).Nodup := by
  have hensure : ∀ (ks : List String) (s : StatsMap),
      (s.map Prod.fst).Nodup → ((ensureKeys s ks).map Prod.fst).Nodup := by
    intro ks
    induction ks with
    | nil => intro s hs; exact hs
    | cons k0 rest ih =>
      intro s hs
      unfold ensureKeys
      rw [List.foldl_cons]
      apply ih
      unfold ensureKey
      by_cases h : hasKey s k0
      · rw [if_pos h]
        exact hs
      · rw [if_neg h]
        rw [List.map_append, List.nodup_append]
        refine ⟨hs, List.nodup_singleton _, ?_⟩
        intro a ha hb
        simp only [List.map_cons, List.map_nil, List.mem_singleton] at hb
        subst hb
        exact h ((hasKey_iff_mem s a).mpr ha)
  induction ds with
  | nil => intro s hs; exact hs
  | cons d rest ih =>
    intro s hs
    unfold scanDocs
    rw [List.foldl_cons]
    apply ih
    unfold scanDoc
    rw [keys_itemsFold]
    exact hensure (docKeys d) s hs

/-! ## Lexicographic string order: totality, transitivity, antisymmetry -/

/-- The character-list order is total. -/
lemma charsLe_total : ∀ x y : List Char, (charsLe x y || charsLe y x) = true := by
  intro x
  induction x with
  | nil => intro y; simp [charsLe]
  | cons a as ih =>
    intro y
    cases y with
    | nil => simp [charsLe]
    | cons b bs =>
      unfold charsLe
      by_cases hab : a < b
      · rw [if_pos hab, Bool.true_or]
      · by_cases hba : b < a
        · rw [if_neg hab, if_pos hba, if_pos hba]
          rfl
        · rw [if_neg hab, if_neg hba, if_neg hba, if_neg hab]
          exact ih bs

/-- The character-list order is transitive. -/
lemma charsLe_trans : ∀ x y z : List Char,
    charsLe x y = true → charsLe y z = true → charsLe x z = true := by
  intro x
  induction x with
  | nil => intro y z _ _; rfl
  | cons a as ih =>
    intro y z hxy hyz
    cases y with
    | nil => simp [charsLe] at hxy
    | cons b bs =>
      cases z with
      | nil => simp [charsLe] at hyz
      | cons c cs =>
        unfold charsLe at hxy hyz ⊢
        by_cases hab : a < b
        · by_cases hbc : b < c
          · rw [if_pos (lt_trans hab hbc)]
          · by_cases hcb : c < b
            · rw [if_neg hbc, if_pos hcb] at hyz
              cases hyz
            · have hbceq : b = c := le_antisymm (not_lt.mp hcb) (not_lt.mp hbc)
              subst hbceq
              rw [if_pos hab]
        · by_cases hba : b < a
          · rw [if_neg hab, if_pos hba] at hxy
            cases hxy
          · have habeq : a = b := le_antisymm (not_lt.mp hba) (not_lt.mp hab)
            subst habeq
            rw [if_neg hab, if_neg hba] at hxy
            by_cases hac : a < c
            · rw [if_pos hac]
            · by_cases hca : c < a
              · rw [if_neg hac, if_pos hca] at hyz
                cases hyz
              · rw [if_neg hac, if_neg hca] at hyz ⊢
                exact ih bs cs hxy hyz

/-- The character-list order is antisymmetric. -/
lemma charsLe_antisymm : ∀ x y : List Char,
    charsLe x y = true → charsLe y x = true → x = y := by
  intro x
  induction x with
  | nil =>
    intro y _ hyx
    cases y with
    | nil => rfl
    | cons b bs => simp [charsLe] at hyx
  | cons a as ih =>
    intro y hxy hyx
    cases y with
    | nil => simp [charsLe] at hxy
    | cons b bs =>
      unfold charsLe at hxy hyx
      by_cases hab : a < b
      · rw [if_neg (lt_asymm hab), if_pos hab] at hyx
        cases hyx
      · by_cases hba : b < a
        · rw [if_neg hab, if_pos hba] at hxy
          cases hxy
        · have habeq : a = b := le_antisymm (not_lt.mp hba) (not_lt.mp hab)
          subst habeq
          rw [if_neg hab, if_neg hba] at hxy hyx
          rw [ih bs hxy hyx]

/-- The string order is total. -/
lemma strLe_total (a b : String) : (strLe a b || strLe b a) = true :=
  charsLe_total a.data b.data

/-- The string order is transitive. -/
lemma strLe_trans (a b c : String) (h1 : strLe a b = true)
    (h2 : strLe b c = true) : strLe a c = true :=
  charsLe_trans a.data b.data c.data h1 h2

/-- The string order is antisymmetric. -/
lemma strLe_antisymm (a b : String) (h1 : strLe a b = true)
    (h2 : strLe b a = true) : a = b :=
  String.ext (charsLe_antisymm a.data b.data h1 h2)

instance : IsAntisymm String fun a b => strLe a b = true := ⟨strLe_antisymm⟩

/-- Sorting two permuted key lists yields the same sorted list. -/
lemma mergeSort_eq_of_perm {l1 l2 : List String} (h : l1.Perm l2) :
    l1.mergeSort strLe = l2.mergeSort strLe := by
  apply List.eq_of_perm_of_sorted (r := fun a b => strLe a b = true)
  · exact ((List.mergeSort_perm l1 strLe).trans h).trans
      (List.mergeSort_perm l2 strLe).symm
  · exact List.sorted_mergeSort (fun a b c => strLe_trans a b c)
      (fun a b => strLe_total a b) l1
  · exact List.sorted_mergeSort (fun a b c => strLe_trans a b c)
      (fun a b => strLe_total a b) l2

/-- Column order is determined by key membership alone (given duplicate-free
key lists). -/
lemma ordered_fields_congr (s1 s2 : StatsMap)
    (hn1 : (s1.map Prod.fst).Nodup) (hn2 : (s2.map Prod.fst).Nodup)
    (hmem : ∀ k, k ∈ s1.map Prod.fst ↔ k ∈ s2.map Prod.fst) :
    ordered_fields s1 = ordered_fields s2 := by
  unfold ordered_fields
  congr 1
  apply mergeSort_eq_of_perm
  apply List.Perm.filter
  rw [List.perm_ext_iff_of_nodup hn1 hn2]
  exact hmem

/-! ## Permutation invariance of the scan (C3) -/

/-- Dicts agreeing on presence and on defaulted lookup agree on lookup. -/
lemma lookupSt_eq_of (s1 s2 : StatsMap) (k : String)
    (hhas : hasKey s1 k = hasKey s2 k) (hd : lookupD s1 k = lookupD s2 k) :
    lookupSt s1 k = lookupSt s2 k := by
  unfold hasKey at hhas
  unfold lookupD at hd
  rcases h1 : lookupSt s1 k with _ | v1 <;> rcases h2 : lookupSt s2 k with _ | v2 <;>
    rw [h1, h2] at hhas hd <;> simp_all

/-- Scanning permuted document lists gives the same statistics for every
field: presence, tag set, count, bounds, length, and (after the nullable
pass) nullability. -/
lemma analyze_perm_lookup (docs1 docs2 : List Doc) (h : docs1.Perm docs2)
    (k : String) :
    lookupSt (analyze_collection_schema docs1 none).1 k =
      lookupSt (analyze_collection_schema docs2 none).1 k := by
  unfold analyze_collection_schema effectiveSample
  dsimp only
  rw [lookupSt_setNullable, lookupSt_setNullable, h.length_eq]
  have hscan : lookupSt (scanDocs [] docs1) k = lookupSt (scanDocs [] docs2) k := by
    apply lookupSt_eq_of
    · apply bool_eq_of_iff
      rw [hasKey_scanDocs, hasKey_scanDocs]
      constructor
      · rintro (hf | ⟨d, hd, hk⟩)
        · exact Or.inl hf
        · exact Or.inr ⟨d, h.mem_iff.mp hd, hk⟩
      · rintro (hf | ⟨d, hd, hk⟩)
        · exact Or.inl hf
        · exact Or.inr ⟨d, h.mem_iff.mpr hd, hk⟩
    · rw [lookupD_scanDocs, lookupD_scanDocs]
      exact (List.Perm.flatMap_right _ h).foldl_eq _
  rw [hscan]

/-- Permutation invariance extends through the `_id` synthesis step. -/
lemma pipeline_perm_lookup (docs1 docs2 : List Doc) (h : docs1.Perm docs2)
    (k : String) :
    lookupSt (pipelineStats docs1 none) k =
      lookupSt (pipelineStats docs2 none) k := by
  unfold pipelineStats ensureId
  have hid : hasKey (analyze_collection_schema docs1 none).1 "_id"
      = hasKey (analyze_collection_schema docs2 none).1 "_id" := by
    unfold hasKey
    rw [analyze_perm_lookup docs1 docs2 h "_id"]
  by_cases hcase : hasKey (analyze_collection_schema docs2 none).1 "_id" = true
  · rw [if_pos (hid.trans hcase), if_pos hcase]
    exact analyze_perm_lookup docs1 docs2 h k
  · have hcase1 : ¬hasKey (analyze_collection_schema docs1 none).1 "_id" = true := by
      rw [hid]
      exact hcase
    rw [if_neg hcase1, if_neg hcase, lookupSt_append, lookupSt_append,
      analyze_perm_lookup docs1 docs2 h k]

/-- Key membership in the analyzed statistics is exactly occurrence in some
sampled document. -/
lemma hasKey_analyze (docs : List Doc) (ss : Option Int) (k : String) :
    hasKey (analyze_collection_schema docs ss).1 k = true ↔
      ∃ d ∈ effectiveSample ss docs, k ∈ docKeys d := by
  unfold analyze_collection_schema
  dsimp only
  rw [hasKey_congr_keys _ _ _ (keys_setNullable _ _), hasKey_scanDocs]
  simp [hasKey, lookupSt]

/-- The key list of the schema pipeline has no duplicates. -/
lemma nodup_keys_pipeline (docs : List Doc) (ss : Option Int) :
    ((pipelineStats docs ss).map Prod.fst).Nodup := by
  unfold pipelineStats ensureId
  have hbase : ((analyze_collection_schema docs ss).1.map Prod.fst).Nodup := by
    unfold analyze_collection_schema
    dsimp only
    rw [keys_setNullable]
    exact nodup_keys_scanDocs _ [] (by simp)
  by_cases h : hasKey (analyze_collection_schema docs ss).1 "_id" = true
  · rw [if_pos h]
    exact hbase
  · rw [if_neg h, List.map_append, List.nodup_append]
    refine ⟨hbase, by simp, ?_⟩
    intro a ha hb
    simp only [List.map_cons, List.map_nil, List.mem_singleton] at hb
    subst hb
    exact h ((hasKey_iff_mem _ _).mpr ha)

/-- C3: scanning any permutation of the document sample yields an identical
table schema — same columns in the same order, same resolved types, same
nullability — because the per-field aggregation is order-independent. -/
theorem c3_order_independence (docs1 docs2 : List Doc) (h : docs1.Perm docs2) :
    tableSchema docs1 none = tableSchema docs2 none := by
  have hlk : ∀ k, lookupSt (pipelineStats docs1 none) k
      = lookupSt (pipelineStats docs2 none) k :=
    fun k => pipeline_perm_lookup docs1 docs2 h k
  have hof : ordered_fields (pipelineStats docs1 none)
      = ordered_fields (pipelineStats docs2 none) := by
    apply ordered_fields_congr
    · exact nodup_keys_pipeline docs1 none
    · exact nodup_keys_pipeline docs2 none
    · intro k
      rw [← hasKey_iff_mem, ← hasKey_iff_mem]
      unfold hasKey
      rw [hlk k]
  unfold tableSchema
  rw [hof]
  apply List.map_congr_left
  intro f _
  unfold lookupD
  rw [hlk f]

/-- C3 witness: swapping two concrete documents leaves the inferred table
schema unchanged. -/
theorem c3_order_independence_witness :
    (([[("a", RawValue.vInt 1)], [("b", RawValue.vStr "xy")]] : List Doc).Perm
      [[("b", RawValue.vStr "xy")], [("a", RawValue.vInt 1)]]) ∧
    tableSchema [[("a", RawValue.vInt 1)], [("b", RawValue.vStr "xy")]] none =
      tableSchema [[("b", RawValue.vStr "xy")], [("a", RawValue.vInt 1)]] none :=
  ⟨List.Perm.swap _ _ _,
    c3_order_independence _ _ (List.Perm.swap _ _ _)⟩

/-! ## Column order and DDL shape (C7) -/

/-- Key membership in the pipeline's statistics dict: the synthesized (or
observed) `_id` plus the analyzed fields. -/
lemma mem_keys_pipeline (docs : List Doc) (ss : Option Int) (k : String) :
    k ∈ (pipelineStats docs ss).map Prod.fst ↔
      k = "_id" ∨ hasKey (analyze_collection_schema docs ss).1 k = true := by
  unfold pipelineStats ensureId
  by_cases h : hasKey (analyze_collection_schema docs ss).1 "_id" = true
  · rw [if_pos h, ← hasKey_iff_mem]
    constructor
    · exact Or.inr
    · rintro (rfl | hk)
      · exact h
      · exact hk
  · rw [if_neg h, List.map_append]
    simp only [List.mem_append, List.map_cons, List.map_nil,
      List.mem_singleton]
    rw [← hasKey_iff_mem]
    tauto

/-- C7: the table schema places `_id` first and the remaining observed
fields after it in ascending lexical order; when no sampled document
contains `_id` it is synthesized as an NVARCHAR(24) column with zero
occurrences; and each emitted column definition renders its schema entry
with a trailing NULL, in schema order. -/
theorem c7_schema_order (docs : List Doc) (ss : Option Int) :
    ((ordered_fields (pipelineStats docs ss)).head? = some "_id") ∧
    (List.Sorted (fun a b => strLe a b = true)
      (ordered_fields (pipelineStats docs ss)).tail) ∧
    (∀ f, f ∈ ordered_fields (pipelineStats docs ss) ↔
      f = "_id" ∨ ∃ d ∈ effectiveSample ss docs, f ∈ docKeys d) ∧
    (((effectiveSample ss docs).all fun d =>
        d.all fun kv => !decide (kv.1 = "_id")) = true →
      lookupSt (pipelineStats docs ss) "_id" = some synthIdStats ∧
      sql_type_from_stats synthIdStats = "NVARCHAR(24)" ∧
      synthIdStats.count = 0) ∧
    ((schema_map_of (pipelineStats docs ss)).map Prod.fst =
      ordered_fields (pipelineStats docs ss)) ∧
    (∀ p ∈ schema_map_of (pipelineStats docs ss),
      ∃ pre, renderColumn p.1 p.2 = pre ++ " NULL") := by
  refine ⟨rfl, ?_, ?_, ?_, ?_, ?_⟩
  · exact List.sorted_mergeSort (fun a b c => strLe_trans a b c)
      (fun a b => strLe_total a b) _
  · intro f
    unfold ordered_fields
    rw [List.mem_cons, List.mem_mergeSort, List.mem_filter]
    rw [← hasKey_analyze docs ss f]
    have hpipe := mem_keys_pipeline docs ss f
    constructor
    · rintro (rfl | ⟨hmem, _⟩)
      · exact Or.inl rfl
      · rcases hpipe.mp hmem with rfl | hk
        · exact Or.inl rfl
        · exact Or.inr hk
    · rintro (rfl | hk)
      · exact Or.inl rfl
      · by_cases hid : f = "_id"
        · exact Or.inl hid
        · exact Or.inr ⟨hpipe.mpr (Or.inr hk), by simpa using hid⟩
  · intro hall
    have hnone : ¬hasKey (analyze_collection_schema docs ss).1 "_id" = true := by
      rw [hasKey_analyze]
      rintro ⟨d, hd, hk⟩
      rcases List.mem_map.mp hk with ⟨kv, hkv, hfst⟩
      have h2 := List.all_eq_true.mp (List.all_eq_true.mp hall d hd) kv hkv
      simp at h2
      exact h2 hfst
    refine ⟨?_, by decide, rfl⟩
    unfold pipelineStats ensureId
    rw [if_neg hnone, lookupSt_append]
    have : lookupSt (analyze_collection_schema docs ss).1 "_id" = none := by
      rcases hl : lookupSt (analyze_collection_schema docs ss).1 "_id" with _ | v
      · rfl
      · exact absurd (by unfold hasKey; rw [hl]; rfl) hnone
    rw [this]
    unfold lookupSt
    rw [if_pos rfl]
  · unfold schema_map_of
    rw [List.map_map]
    exact (List.map_congr_left fun f _ => rfl).trans (List.map_id _)
  · intro p _
    exact ⟨"[" ++ p.1 ++ "] " ++ p.2, rfl⟩

/-- C7 witness: the empty collection — `_id` never appears, the schema is
the single synthesized NVARCHAR(24) `_id` column with zero occurrences. -/
theorem c7_schema_order_witness :
    (((effectiveSample none ([] : List Doc)).all fun d =>
        d.all fun kv => !decide (kv.1 = "_id")) = true) ∧
    ((ordered_fields (pipelineStats [] none)).head? = some "_id") ∧
    (lookupSt (pipelineStats [] none) "_id" = some synthIdStats ∧
      sql_type_from_stats synthIdStats = "NVARCHAR(24)" ∧
      synthIdStats.count = 0) :=
  ⟨rfl, (c7_schema_order [] none).1, (c7_schema_order [] none).2.2.2.1 rfl⟩

end MongoToSql
